import Mathlib

/-!
Verification of the Fin-Tracker ingestion-and-analysis pipeline.

Shallow embedding of the repository sources:
  - tools.py    (GmailClient.fetch_emails: thread aggregation),
  - analyzer.py (EmailAnalyzer classification and extraction stages, retry loops),
  - main.py     (SQLite store, dedup check, incremental poll window).

Modelling conventions:
  - Timestamps are integers (minutes on a linear time axis).  The code stores
    ISO-8601 text and compares parsed values; ISO text compares lexicographically
    exactly as chronologically, so both views are represented by the parsed value.
  - Float amounts and confidences are carried opaquely as rationals: no claim in
    scope performs floating-point arithmetic on them, they are only copied.
  - The AI agents are opaque oracles: each attempt of a stage either raises an
    error inside agent.run, returns an empty response, returns a response whose
    content is not an instance of the expected pydantic model, or returns a
    well-typed value.  This is exactly the case split of the try blocks in
    analyzer.py lines 190-220 and 229-265.
  - Python dict iteration and sqlite rows are represented by association lists
    kept in insertion order.
-/

/-- Classification result produced by the classifier oracle
(analyzer.py EmailClassification, lines 30-34). -/
structure EmailClassification where
  is_transactional : Bool
  confidence : Rat
  reasoning : String
  deriving DecidableEq

/-- Transaction record produced by the extractor oracle
(analyzer.py TransactionData, lines 37-46). -/
structure TransactionData where
  email_id : String
  thread_id : String
  from_email : String
  subject : String
  transaction_date : String
  amount : Rat
  description : String
  raw_data : String
  deriving DecidableEq

/-- Aggregated conversation handed from tools.py to the analyzer
(tools.py EmailData, lines 18-27).  send_time holds the parsed timestamp. -/
structure EmailData where
  id : String
  thread_id : String
  from_email : String
  to_email : String
  subject : String
  page_content : String
  send_time : Int
  is_read : Bool
  attachments : List (String × String)
  deriving DecidableEq

/-- One provider-side raw message after header extraction inside the
fetch_emails loop (tools.py lines 159-173): headers are already stripped,
reply_to is the empty string when the Reply-To header is absent or blank. -/
structure RawMsg where
  id : String
  thread_id : String
  from_email : String
  reply_to : String
  to_email : String
  subject : String
  body : String
  send_time : Int
  is_read : Bool
  attachments : List (String × String)
  deriving DecidableEq

/-- JSON rendering of a string value; escaping of special characters is
omitted because no claim inspects the rendered text, only whether the field
equals the serialization of the conversation itself. -/
def jsonStr (s : String) : String := "\"" ++ s ++ "\""

/-- JSON rendering of one attachment descriptor dict. -/
def jsonAttachment : String × String → String
  | (fn, aid) =>
    "\x7b\"filename\": " ++ jsonStr fn ++ ", \"id\": " ++ jsonStr aid ++ "\x7d"

/-- json.dumps of the conversation dict (analyzer.py line 246), with keys in
the insertion order of the EmailData constructor in tools.py. -/
def jsonDumps (e : EmailData) : String :=
  "\x7b\"from_email\": " ++ jsonStr e.from_email
  ++ ", \"to_email\": " ++ jsonStr e.to_email
  ++ ", \"subject\": " ++ jsonStr e.subject
  ++ ", \"page_content\": " ++ jsonStr e.page_content
  ++ ", \"id\": " ++ jsonStr e.id
  ++ ", \"thread_id\": " ++ jsonStr e.thread_id
  ++ ", \"send_time\": " ++ jsonStr (toString e.send_time)
  ++ ", \"is_read\": " ++ (if e.is_read then "true" else "false")
  ++ ", \"attachments\": ["
  ++ String.intercalate ", " (e.attachments.map jsonAttachment) ++ "]\x7d"

/-- Post-processing of a successful extractor response
(analyzer.py lines 241-247): transaction.update overwrites email_id,
thread_id and raw_data with the authoritative values from the conversation. -/
def extractTransaction (email : EmailData) (d : TransactionData) : TransactionData :=
  { d with
    email_id := email.id
    thread_id := email.thread_id
    raw_data := jsonDumps email }

/-- Row of the transactions table created by init_db (main.py lines 52-64):
columns email_id, thread_id, from_email, transaction_date, amount,
description, category.  The table has no subject and no raw_data column. -/
structure TransRow where
  email_id : String
  thread_id : String
  from_email : String
  transaction_date : String
  amount : Rat
  description : String
  category : String
  deriving DecidableEq

/-- Values bound by the INSERT statement of store_transaction
(main.py lines 79-91).  The pipeline dicts carry no category key, so
transaction.get of category with default yields the empty string; the
subject and raw_data entries of the dict are simply not bound. -/
def rowOfTransaction (t : TransactionData) : TransRow :=
  { email_id := t.email_id
    thread_id := t.thread_id
    from_email := t.from_email
    transaction_date := t.transaction_date
    amount := t.amount
    description := t.description
    category := "" }

/-- store_transaction (main.py lines 71-109): INSERT OR IGNORE against the
UNIQUE email_id column leaves the table unchanged and reports rowcount 0 when
a row with the same email_id exists, otherwise appends the new row and
reports rowcount 1; the boolean is cursor.rowcount greater than 0. -/
def storeTransaction (db : List TransRow) (t : TransactionData) :
    List TransRow × Bool :=
  if db.any (fun r => r.email_id == t.email_id) then (db, false)
  else (db ++ [rowOfTransaction t], true)

/-- email_already_processed (main.py lines 111-120): SELECT 1 by email_id;
any error during the lookup is caught and reported as False. -/
def emailAlreadyProcessed (dbres : Except String (List TransRow))
    (eid : String) : Bool :=
  match dbres with
  | .error _ => false
  | .ok db => db.any (fun r => r.email_id == eid)

/-- Decision taken by the poll loop for one fetched conversation
(main.py lines 167-172): skip when the dedup check reports processed,
otherwise run the analyzer. -/
inductive PollAction where
  | skip
  | analyze
  deriving DecidableEq

/-- Branch of the poll loop body guarding the analyzer call
(main.py lines 168-172). -/
def pollStepAction (dbres : Except String (List TransRow))
    (e : EmailData) : PollAction :=
  if emailAlreadyProcessed dbres e.id then .skip else .analyze

/-- get_last_processed_time (main.py lines 122-139): SELECT MAX over the
transaction_date column, none when the table is empty.  Dates are modeled by
their parsed values, see the header comment. -/
def getLastProcessedTime (dates : List Int) : Option Int :=
  match dates with
  | [] => none
  | d :: ds => some (ds.foldl max d)

/-- Window computation of one poll cycle (main.py lines 148-152):
start is the last processed time, or now minus 24 hours when none exists;
when a last processed time exists, a 10 minute overlap is subtracted.
The end of the window is the current time.  Times are in minutes. -/
def pollWindow (now : Int) (dates : List Int) : Int × Int :=
  let lastProcessed := getLastProcessedTime dates
  let start := lastProcessed.getD (now - 24 * 60)
  let start1 := if lastProcessed.isSome then start - 10 else start
  (start1, now)

/-- Default of Config.MAX_RETRIES (analyzer.py line 26). -/
def MAX_RETRIES : Nat := 3

/-- Outcome of one classifier attempt as distinguished by the try block of
_classify_email (analyzer.py lines 190-220): agent.run raises; the response
or its content is falsy; the content is not an EmailClassification; or a
well-typed classification is returned. -/
inductive ClassifierOutcome where
  | raises
  | empty
  | wrongType
  | ok (c : EmailClassification)
  deriving DecidableEq

/-- Outcome of one extractor attempt as distinguished by the try block of
_extract_transaction (analyzer.py lines 229-265). -/
inductive ExtractorOutcome where
  | raises
  | empty
  | wrongType
  | ok (d : TransactionData)
  deriving DecidableEq

/-- Observable run of a stage: the yielded value, the number of oracle
invocations, and the number of retry sleeps performed. -/
structure StageRun (α : Type) where
  result : Option α
  calls : Nat
  sleeps : Nat
  deriving DecidableEq

/-- Body of the retry loop of _classify_email (analyzer.py lines 190-222).
The fuel argument is the number of loop iterations still allowed, initially
MAX_RETRIES; attempt is the current loop index, so the Python guard
attempt < MAX_RETRIES - 1 is fuel greater than one, and the oracle may
depend on the attempt number.  An empty or wrongly-typed response returns
None from inside the loop; a raised error sleeps and retries while
iterations remain and otherwise returns None. -/
def classifyAux (oracle : Nat → ClassifierOutcome) :
    Nat → Nat → StageRun EmailClassification
  | _, 0 => ⟨none, 0, 0⟩
  | attempt, fuel + 1 =>
    match oracle attempt with
    | .empty => ⟨none, 1, 0⟩
    | .wrongType => ⟨none, 1, 0⟩
    | .ok c => ⟨some c, 1, 0⟩
    | .raises =>
      if fuel = 0 then ⟨none, 1, 0⟩
      else
        let r := classifyAux oracle (attempt + 1) fuel
        ⟨r.result, r.calls + 1, r.sleeps + 1⟩

/-- _classify_email (analyzer.py lines 185-222). -/
def classifyEmail (oracle : Nat → ClassifierOutcome) (maxRetries : Nat) :
    StageRun EmailClassification :=
  classifyAux oracle 0 maxRetries

/-- Body of the retry loop of _extract_transaction
(analyzer.py lines 229-267), same loop shape as classifyAux; a successful
response is post-processed by extractTransaction before being returned. -/
def extractAux (email : EmailData) (oracle : Nat → ExtractorOutcome) :
    Nat → Nat → StageRun TransactionData
  | _, 0 => ⟨none, 0, 0⟩
  | attempt, fuel + 1 =>
    match oracle attempt with
    | .empty => ⟨none, 1, 0⟩
    | .wrongType => ⟨none, 1, 0⟩
    | .ok d => ⟨some (extractTransaction email d), 1, 0⟩
    | .raises =>
      if fuel = 0 then ⟨none, 1, 0⟩
      else
        let r := extractAux email oracle (attempt + 1) fuel
        ⟨r.result, r.calls + 1, r.sleeps + 1⟩

/-- _extract_transaction (analyzer.py lines 224-267). -/
def extractStage (email : EmailData) (oracle : Nat → ExtractorOutcome)
    (maxRetries : Nat) : StageRun TransactionData :=
  extractAux email oracle 0 maxRetries

/-- Character-level worker for the Python str.split on the two-character
separator comma-space: cut at every leftmost occurrence of the separator,
accumulating the current segment in reverse. -/
def splitSepChars : List Char → List Char → List String
  | [], acc => [String.mk acc.reverse]
  | [c], acc => [String.mk (acc.reverse ++ [c])]
  | c :: d :: rest, acc =>
    if c = ',' ∧ d = ' ' then String.mk acc.reverse :: splitSepChars rest []
    else splitSepChars (d :: rest) (c :: acc)

/-- Python str.split with separator comma-space, as used on the accumulated
sender and recipient strings (tools.py lines 196-197). -/
def pySplit (s : String) : List String := splitSepChars s.data []

/-- Python str.join with separator comma-space (tools.py lines 196-197). -/
def pyJoin : List String → String
  | [] => ""
  | [s] => s
  | s :: t :: rest => s ++ ", " ++ pyJoin (t :: rest)

/-- Whether the two-character separator comma-space occurs in the character
list; segments produced by a split never contain it. -/
def hasSepChars : List Char → Bool
  | [] => false
  | [_] => false
  | c :: d :: rest => (c = ',' && d = ' ') || hasSepChars (d :: rest)

/-- Whether the separator comma-space occurs in the string. -/
def hasSep (s : String) : Bool := hasSepChars s.data

/-- Sender resolution for one raw message (tools.py lines 165-168): a
non-blank Reply-To header overrides the From header. -/
def resolvedFrom (m : RawMsg) : String :=
  if m.reply_to = "" then m.from_email else m.reply_to

/-- Conversation seeded from the first fetched message of a thread
(tools.py lines 198-209). -/
def seedMsg (m : RawMsg) : EmailData :=
  { id := m.id
    thread_id := m.thread_id
    from_email := resolvedFrom m
    to_email := m.to_email
    subject := m.subject
    page_content := m.body
    send_time := m.send_time
    is_read := m.is_read
    attachments := m.attachments }

/-- Merge of a later fetched message of the same thread into the existing
conversation (tools.py lines 187-197): append the body behind a separator
marker, append unseen attachment descriptors one by one, conjoin the read
flags, keep the later timestamp, and rebuild the sender and recipient
strings as the comma-join of the deduplicated union.  Python set iteration
order is unspecified; one enumeration of the deduplicated elements is fixed
here, and every claim proved about these fields reads them back as sets. -/
def mergeMsg (c : EmailData) (m : RawMsg) : EmailData :=
  { c with
    page_content :=
      c.page_content ++ "\n\n--- New Message in Thread ---\n\n" ++ m.body
    attachments :=
      m.attachments.foldl
        (fun acc a => if acc.contains a then acc else acc ++ [a])
        c.attachments
    is_read := c.is_read && m.is_read
    send_time := if m.send_time > c.send_time then m.send_time else c.send_time
    from_email := pyJoin (List.dedup (pySplit c.from_email ++ [resolvedFrom m]))
    to_email := pyJoin (List.dedup (pySplit c.to_email ++ [m.to_email])) }

/-- Thread-map lookup: the Python membership test thread_id in threads
(tools.py line 187). -/
def lookupThread (ts : List (String × EmailData)) (tid : String) :
    Option EmailData :=
  (ts.find? (fun p => p.fst == tid)).map Prod.snd

/-- Thread-map update of the entry of an existing thread id. -/
def setThread (ts : List (String × EmailData)) (tid : String) (c : EmailData) :
    List (String × EmailData) :=
  ts.map (fun p => if p.fst == tid then (tid, c) else p)

/-- One iteration of the fetch_emails message loop (tools.py lines 157-209):
merge into the existing conversation of the thread id, or seed a new one. -/
def threadStep (ts : List (String × EmailData)) (m : RawMsg) :
    List (String × EmailData) :=
  match lookupThread ts m.thread_id with
  | some c => setThread ts m.thread_id (mergeMsg c m)
  | none => ts ++ [(m.thread_id, seedMsg m)]

/-- Aggregation of the fetched messages into one conversation per thread id
(tools.py fetch_emails, lines 156-209), messages in provider fetch order. -/
def aggregate (msgs : List RawMsg) : List (String × EmailData) :=
  msgs.foldl threadStep []

/-- Sender set contributed by one raw message: its resolved sender string
read as a set of addresses. -/
def contribSenders (m : RawMsg) : Finset String :=
  (pySplit (resolvedFrom m)).toFinset

/-- Sender set of a conversation: its comma-joined sender string read as a
set of addresses. -/
def senderSet (c : EmailData) : Finset String :=
  (pySplit c.from_email).toFinset

/-- Oracle trace whose first attempt returns an empty response and whose
second attempt would return a valid classification. -/
def c1EmptyThenOk : Nat → ClassifierOutcome :=
  fun n => if n = 0 then .empty else .ok ⟨true, 1, "clear receipt"⟩

/-- Classifier oracle that always returns an empty response. -/
def c1EmptyOracle : Nat → ClassifierOutcome := fun _ => .empty

/-- Extractor oracle that always returns a wrongly-typed response. -/
def c1WrongOracle : Nat → ExtractorOutcome := fun _ => .wrongType

/-- Sample conversation for the C1 witness. -/
def c1Email : EmailData := ⟨"m1", "t1", "a@x", "b@x", "Receipt", "body", 5, true, []⟩

/-- Sample conversation for the C2 witness. -/
def c2Email : EmailData := ⟨"m7", "t7", "a@x", "b@x", "Receipt", "body", 5, true, []⟩

/-- Extractor output carrying a message id different from the real one. -/
def c2D : TransactionData :=
  ⟨"WRONG", "WRONGT", "shop@x", "Receipt", "2026-01-02", 12,
    "Payment - CoffeeCo - Coffee", "oracle raw"⟩

/-- Extractor oracle for the C2 witness. -/
def c2Oracle : Nat → ExtractorOutcome := fun _ => .ok c2D

/-- Transaction yielded by the extraction stage in the C2 witness. -/
def c2T : TransactionData := extractTransaction c2Email c2D

/-- Classifier oracle that raises on every attempt. -/
def c3OracleFail : Nat → ClassifierOutcome := fun _ => .raises

/-- Classifier oracle that raises once and then succeeds. -/
def c3OracleOnce : Nat → ClassifierOutcome :=
  fun n => if n = 0 then .raises else .ok ⟨true, 1, "clear receipt"⟩

/-- Sample transaction for the C4 witness. -/
def c4T : TransactionData :=
  ⟨"m1", "t1", "f@x", "s", "2026-01-01", 12, "d", "r"⟩

/-- Second transaction with the same message id for the C4 witness. -/
def c4T2 : TransactionData :=
  ⟨"m1", "t9", "g@x", "s2", "2026-02-01", 7, "d2", "r2"⟩

/-- Extracted transaction with one subject and one raw-data audit copy. -/
def c5TxnA : TransactionData :=
  ⟨"m1", "t1", "shop@x", "Receipt", "2026-01-02", 12,
    "Payment - CoffeeCo - Coffee", "raw one"⟩

/-- Same transaction with a different subject and a different raw-data
audit copy. -/
def c5TxnB : TransactionData :=
  ⟨"m1", "t1", "shop@x", "Invoice", "2026-01-02", 12,
    "Payment - CoffeeCo - Coffee", "raw two"⟩

/-- Raw message whose Reply-To header overrides its From header. -/
def c7A : RawMsg :=
  ⟨"m1", "t1", "noreply@x", "real@x", "to@x", "s1", "b1", 5, true, []⟩

/-- Raw message of the same thread without a Reply-To header. -/
def c7B : RawMsg :=
  ⟨"m2", "t1", "b@x", "", "to@x", "s2", "b2", 7, false, []⟩

/-- Chronologically later message of a thread, fetched first. -/
def c8A : RawMsg :=
  ⟨"m1", "t1", "a@x", "", "to@x", "s", "b1", 9, true, []⟩

/-- Chronologically earlier message of the same thread, fetched second. -/
def c8B : RawMsg :=
  ⟨"m2", "t1", "b@x", "", "to@x", "s", "b2", 4, true, []⟩

/-- Stored row for the C9 witness. -/
def c9Row : TransRow := ⟨"m1", "t1", "f@x", "2026-01-01", 12, "d", ""⟩

/-- Conversation whose id already has a stored row, for the C9 witness. -/
def c9Email : EmailData := ⟨"m1", "t1", "a@x", "b@x", "s", "body", 5, true, []⟩

/-- Re-extracted transaction for the conversation of the C9 witness. -/
def c9T : TransactionData := ⟨"m1", "t1", "f@x", "s", "2026-01-01", 12, "d", "r"⟩

/-- An initial accumulator never exceeds a foldl of max over it. -/
theorem le_foldlMax (l : List Int) : ∀ a : Int, a ≤ l.foldl max a := by
  induction l with
  | nil => intro a; exact le_refl a
  | cons b l ih => intro a; exact le_trans (le_max_left a b) (ih (max a b))

/-- Every list member is bounded by a foldl of max over the list. -/
theorem mem_le_foldlMax (l : List Int) :
    ∀ (a x : Int), x ∈ l → x ≤ l.foldl max a := by
  induction l with
  | nil => intro a x hx; simp at hx
  | cons b l ih =>
    intro a x hx
    rcases List.mem_cons.mp hx with h | h
    · subst h; exact le_trans (le_max_right a x) (le_foldlMax l (max a x))
    · exact ih (max a b) x h

/-- A foldl of max is the initial accumulator or a list member. -/
theorem foldlMax_mem_or_init (l : List Int) :
    ∀ a : Int, l.foldl max a = a ∨ l.foldl max a ∈ l := by
  induction l with
  | nil => intro a; left; rfl
  | cons b l ih =>
    intro a
    rcases ih (max a b) with h | h
    · rw [List.foldl_cons, h]
      rcases max_choice a b with hm | hm
      · left; exact hm
      · right; rw [hm]; exact List.mem_cons_self b l
    · right
      rw [List.foldl_cons]
      exact List.mem_cons_of_mem b h

/-- Every value yielded by the extraction retry loop is the post-processed
image of some oracle output under extractTransaction. -/
theorem extractAux_result_shape (email : EmailData)
    (oracle : Nat → ExtractorOutcome) :
    ∀ (fuel attempt : Nat) (t : TransactionData),
      (extractAux email oracle attempt fuel).result = some t →
      ∃ d, t = extractTransaction email d := by
  intro fuel
  induction fuel with
  | zero => intro attempt t h; simp [extractAux] at h
  | succ f ih =>
    intro attempt t h
    rw [extractAux] at h
    cases hc : oracle attempt with
    | empty => rw [hc] at h; simp at h
    | wrongType => rw [hc] at h; simp at h
    | ok d => rw [hc] at h; simp at h; exact ⟨d, h.symm⟩
    | raises =>
      rw [hc] at h
      by_cases hf : f = 0
      · rw [if_pos hf] at h; simp at h
      · rw [if_neg hf] at h
        exact ih (attempt + 1) t h

/-- Claim C2: whatever the extraction oracle returns, the Transaction the
stage yields carries the conversation's own id, thread id and serialized
form in its message id, thread id and raw-data fields; in particular an
oracle-provided message id different from the real one is discarded. -/
theorem extract_authoritative (email : EmailData)
    (oracle : Nat → ExtractorOutcome) (maxR : Nat) (t d : TransactionData)
    (hy : (extractStage email oracle maxR).result = some t)
    (hd : d.email_id ≠ email.id) :
    (t.email_id = email.id ∧ t.thread_id = email.thread_id ∧
      t.raw_data = jsonDumps email) ∧
    ((extractTransaction email d).email_id = email.id ∧
      (extractTransaction email d).email_id ≠ d.email_id) := by
  obtain ⟨d2, rfl⟩ := extractAux_result_shape email oracle maxR 0 t hy
  exact ⟨⟨rfl, rfl, rfl⟩, rfl, fun h => hd h.symm⟩

/-- Witness for extract_authoritative at a concrete conversation and a
concrete oracle that reports a wrong message id. -/
theorem extract_authoritative_case :
    ((extractStage c2Email c2Oracle MAX_RETRIES).result = some c2T ∧
      c2D.email_id ≠ c2Email.id) ∧
    ((c2T.email_id = c2Email.id ∧ c2T.thread_id = c2Email.thread_id ∧
      c2T.raw_data = jsonDumps c2Email) ∧
    ((extractTransaction c2Email c2D).email_id = c2Email.id ∧
      (extractTransaction c2Email c2D).email_id ≠ c2D.email_id)) :=
  ⟨⟨rfl, by decide⟩,
    extract_authoritative c2Email c2Oracle MAX_RETRIES c2T c2D rfl (by decide)⟩

/-- Claim C10: the extraction stage post-processing replaces only the
message id, thread id and raw-data fields; sender, subject, date, amount
and description pass through from the oracle output unchanged, for every
conversation (hence without any cross-check against its headers). -/
theorem extract_frame (email : EmailData) (d : TransactionData) :
    (extractTransaction email d).from_email = d.from_email ∧
    (extractTransaction email d).subject = d.subject ∧
    (extractTransaction email d).transaction_date = d.transaction_date ∧
    (extractTransaction email d).amount = d.amount ∧
    (extractTransaction email d).description = d.description ∧
    (extractTransaction email d).email_id = email.id ∧
    (extractTransaction email d).thread_id = email.thread_id ∧
    (extractTransaction email d).raw_data = jsonDumps email :=
  ⟨rfl, rfl, rfl, rfl, rfl, rfl, rfl, rfl⟩

/-- Claim C4: inserting a Transaction whose message id already has a stored
row changes nothing and reports false; a first insert for a fresh id appends
the row and reports true, and a subsequent insert for the same id is a no-op
that leaves exactly one row for that id. -/
theorem store_insert_idempotent (db : List TransRow) (t : TransactionData) :
    ((∃ r ∈ db, r.email_id = t.email_id) →
      storeTransaction db t = (db, false)) ∧
    ((∀ r ∈ db, r.email_id ≠ t.email_id) →
      storeTransaction db t = (db ++ [rowOfTransaction t], true) ∧
      ∀ t2 : TransactionData, t2.email_id = t.email_id →
        storeTransaction (db ++ [rowOfTransaction t]) t2 =
          (db ++ [rowOfTransaction t], false) ∧
        (db ++ [rowOfTransaction t]).countP
          (fun r => r.email_id == t.email_id) = 1) := by
  constructor
  · rintro ⟨r, hr, he⟩
    have hany : db.any (fun r => r.email_id == t.email_id) = true := by
      rw [List.any_eq_true]
      exact ⟨r, hr, by simp [he]⟩
    simp [storeTransaction, hany]
  · intro hfresh
    have hany : db.any (fun r => r.email_id == t.email_id) = false := by
      rw [List.any_eq_false]
      intro r hr
      simp [hfresh r hr]
    refine ⟨by simp [storeTransaction, hany], ?_⟩
    intro t2 ht2
    have hany2 : (db ++ [rowOfTransaction t]).any
        (fun r => r.email_id == t2.email_id) = true := by
      rw [List.any_eq_true]
      exact ⟨rowOfTransaction t, by simp, by simp [rowOfTransaction, ht2]⟩
    constructor
    · simp [storeTransaction, hany2]
    · rw [List.countP_append]
      have h1 : db.countP (fun r => r.email_id == t.email_id) = 0 := by
        rw [List.countP_eq_zero]
        intro r hr
        simp [hfresh r hr]
      have h2 : List.countP (fun r => r.email_id == t.email_id)
          [rowOfTransaction t] = 1 := by
        simp [rowOfTransaction]
      omega

/-- Witness for store_insert_idempotent: a duplicate insert into a one-row
store is rejected, and a fresh insert into the empty store succeeds and is
idempotent afterwards. -/
theorem store_insert_idempotent_case :
    storeTransaction [rowOfTransaction c4T] c4T2 =
      ([rowOfTransaction c4T], false) ∧
    storeTransaction [] c4T = ([] ++ [rowOfTransaction c4T], true) ∧
    storeTransaction ([] ++ [rowOfTransaction c4T]) c4T2 =
      ([] ++ [rowOfTransaction c4T], false) ∧
    (([] : List TransRow) ++ [rowOfTransaction c4T]).countP
      (fun r => r.email_id == c4T.email_id) = 1 := by
  refine ⟨(store_insert_idempotent [rowOfTransaction c4T] c4T2).1
      ⟨rowOfTransaction c4T, by simp, by decide⟩, ?_⟩
  have h := (store_insert_idempotent [] c4T).2 (by simp)
  have h2 := h.2 c4T2 (by decide)
  exact ⟨h.1, h2.1, h2.2⟩

/-- Claim C5 (code evaluation at the failing input): the persisted row keeps
neither the email subject nor the raw-data audit copy: two extracted
transactions that differ exactly in those two fields are stored as identical
rows with identical outcomes. -/
theorem store_drops_subject_raw :
    c5TxnA.subject ≠ c5TxnB.subject ∧
    c5TxnA.raw_data ≠ c5TxnB.raw_data ∧
    rowOfTransaction c5TxnA = rowOfTransaction c5TxnB ∧
    storeTransaction [] c5TxnA = storeTransaction [] c5TxnB := by
  refine ⟨by decide, by decide, by decide, by decide⟩

/-- Claim C9: when the dedup lookup errors, the check reports not-processed
instead of propagating, so the loop analyzes a conversation whose id already
has a stored row; the duplicate is stopped only by the unique-key insert,
which leaves the store unchanged and reports false. -/
theorem processed_check_fail_open (msg : String) (db : List TransRow)
    (e : EmailData) (r : TransRow) (t : TransactionData)
    (hr : r ∈ db) (hid : r.email_id = e.id) (ht : t.email_id = e.id) :
    emailAlreadyProcessed (Except.error msg) e.id = false ∧
    pollStepAction (Except.error msg) e = PollAction.analyze ∧
    emailAlreadyProcessed (Except.ok db) e.id = true ∧
    storeTransaction db t = (db, false) := by
  have hok : emailAlreadyProcessed (Except.ok db) e.id = true := by
    rw [emailAlreadyProcessed, List.any_eq_true]
    exact ⟨r, hr, by simp [hid]⟩
  refine ⟨rfl, ?_, hok, ?_⟩
  · simp [pollStepAction, emailAlreadyProcessed]
  · have hany : db.any (fun x => x.email_id == t.email_id) = true := by
      rw [List.any_eq_true]
      exact ⟨r, hr, by simp [hid, ht]⟩
    simp [storeTransaction, hany]

/-- Witness for processed_check_fail_open at a one-row store holding the
very message id the poll loop is about to process. -/
theorem processed_check_fail_open_case :
    (c9Row ∈ [c9Row] ∧ c9Row.email_id = c9Email.id ∧
      c9T.email_id = c9Email.id) ∧
    (emailAlreadyProcessed (Except.error "db locked") c9Email.id = false ∧
      pollStepAction (Except.error "db locked") c9Email = PollAction.analyze ∧
      emailAlreadyProcessed (Except.ok [c9Row]) c9Email.id = true ∧
      storeTransaction [c9Row] c9T = ([c9Row], false)) :=
  ⟨⟨by simp, rfl, rfl⟩,
    processed_check_fail_open "db locked" [c9Row] c9Email c9Row c9T
      (by simp) rfl rfl⟩

/-- Claim C6: with at least one stored Transaction, the poll window starts
at the maximum transaction date minus the 10-minute overlap; with none, it
starts at now minus 24 hours with no overlap subtracted; the window end is
the current time. -/
theorem poll_window_spec (now : Int) (dates : List Int) :
    (dates = [] → getLastProcessedTime dates = none ∧
      pollWindow now dates = (now - 24 * 60, now)) ∧
    (dates ≠ [] → ∃ T, getLastProcessedTime dates = some T ∧ T ∈ dates ∧
      (∀ x ∈ dates, x ≤ T) ∧ pollWindow now dates = (T - 10, now)) := by
  constructor
  · rintro rfl; exact ⟨rfl, rfl⟩
  · intro hne
    match dates with
    | [] => exact absurd rfl hne
    | d :: ds =>
      refine ⟨ds.foldl max d, rfl, ?_, ?_, ?_⟩
      · rcases foldlMax_mem_or_init ds d with h | h
        · rw [h]; exact List.mem_cons_self _ _
        · exact List.mem_cons_of_mem _ h
      · intro x hx
        rcases List.mem_cons.mp hx with h | h
        · subst h; exact le_foldlMax ds x
        · exact mem_le_foldlMax ds d x h
      · simp [pollWindow, getLastProcessedTime]

/-- Witness for poll_window_spec on the empty store and on a store whose
maximum transaction date is 100 minutes. -/
theorem poll_window_spec_case :
    (getLastProcessedTime [] = none ∧
      pollWindow 1000 [] = (1000 - 24 * 60, 1000)) ∧
    (∃ T, getLastProcessedTime [100, 50] = some T ∧ T ∈ [100, 50] ∧
      (∀ x ∈ [100, 50], x ≤ T) ∧ pollWindow 1000 [100, 50] = (T - 10, 1000)) :=
  ⟨(poll_window_spec 1000 []).1 rfl,
    (poll_window_spec 1000 [100, 50]).2 (by simp)⟩

/-- Claim C1 counterexample: the classifier oracle returns an empty response
on the first attempt and a valid classification would be available on the
second, yet the stage yields absent after exactly one invocation and zero
retry sleeps: an empty response is not treated as a recoverable failure. -/
theorem classify_gives_up_on_empty :
    c1EmptyThenOk 0 = ClassifierOutcome.empty ∧
    c1EmptyThenOk 1 = ClassifierOutcome.ok ⟨true, 1, "clear receipt"⟩ ∧
    classifyEmail c1EmptyThenOk MAX_RETRIES = ⟨none, 1, 0⟩ := by
  refine ⟨rfl, rfl, by decide⟩

/-- Claim C1 (amended): an empty or wrongly-typed oracle response is
terminal for both stages: the stage returns absent immediately after that
single invocation, with no sleep and no retry (only errors raised inside
the oracle call are retried). -/
theorem classify_extract_empty_terminal (co : Nat → ClassifierOutcome)
    (eo : Nat → ExtractorOutcome) (email : EmailData) (maxR : Nat)
    (h1 : co 0 = ClassifierOutcome.empty ∨ co 0 = ClassifierOutcome.wrongType)
    (h2 : eo 0 = ExtractorOutcome.empty ∨ eo 0 = ExtractorOutcome.wrongType)
    (hm : 1 ≤ maxR) :
    classifyEmail co maxR = ⟨none, 1, 0⟩ ∧
    extractStage email eo maxR = ⟨none, 1, 0⟩ := by
  obtain ⟨f, rfl⟩ : ∃ f, maxR = f + 1 := ⟨maxR - 1, by omega⟩
  constructor
  · rcases h1 with h | h <;> simp [classifyEmail, classifyAux, h]
  · rcases h2 with h | h <;> simp [extractStage, extractAux, h]

/-- Witness for classify_extract_empty_terminal with an always-empty
classifier oracle and an always-wrongly-typed extractor oracle. -/
theorem classify_extract_empty_terminal_case :
    ((c1EmptyOracle 0 = ClassifierOutcome.empty ∨
        c1EmptyOracle 0 = ClassifierOutcome.wrongType) ∧
      (c1WrongOracle 0 = ExtractorOutcome.empty ∨
        c1WrongOracle 0 = ExtractorOutcome.wrongType) ∧
      1 ≤ MAX_RETRIES) ∧
    (classifyEmail c1EmptyOracle MAX_RETRIES = ⟨none, 1, 0⟩ ∧
      extractStage c1Email c1WrongOracle MAX_RETRIES = ⟨none, 1, 0⟩) :=
  ⟨⟨Or.inl rfl, Or.inr rfl, by decide⟩,
    classify_extract_empty_terminal c1EmptyOracle c1WrongOracle c1Email
      MAX_RETRIES (Or.inl rfl) (Or.inr rfl) (by decide)⟩

/-- A classification retry loop whose oracle raises on every remaining
attempt invokes the oracle once per remaining iteration, sleeps between
iterations, and yields absent. -/
theorem classifyAux_all_raises (co : Nat → ClassifierOutcome) :
    ∀ (fuel attempt : Nat),
      (∀ n, attempt ≤ n → n < attempt + fuel → co n = ClassifierOutcome.raises) →
      classifyAux co attempt fuel = ⟨none, fuel, fuel - 1⟩ := by
  intro fuel
  induction fuel with
  | zero => intro a h; rfl
  | succ f ih =>
    intro a h
    have ha : co a = ClassifierOutcome.raises := h a (le_refl a) (by omega)
    by_cases hf : f = 0
    · subst hf; simp [classifyAux, ha]
    · have hr := ih (a + 1) (fun n h1 h2 => h n (by omega) (by omega))
      simp only [classifyAux, ha, hf, if_neg, ite_false, hr]
      refine congrArg (fun x => StageRun.mk none (f + 1) x) ?_
      omega

/-- Claim C3: an always-recoverably-failing stage invokes the oracle exactly
max_attempts times (default 3) and yields absent without raising; a stage
whose first attempt fails recoverably and whose second succeeds yields the
success after exactly 2 invocations. -/
theorem classify_retry_bound (co1 co2 : Nat → ClassifierOutcome) (maxR : Nat)
    (c : EmailClassification)
    (h1 : ∀ n, n < maxR → co1 n = ClassifierOutcome.raises)
    (h2a : co2 0 = ClassifierOutcome.raises)
    (h2b : co2 1 = ClassifierOutcome.ok c)
    (hm : 2 ≤ maxR) :
    MAX_RETRIES = 3 ∧
    classifyEmail co1 maxR = ⟨none, maxR, maxR - 1⟩ ∧
    classifyEmail co2 maxR = ⟨some c, 2, 1⟩ := by
  refine ⟨rfl,
    classifyAux_all_raises co1 maxR 0 (fun n _ hn => h1 n (by omega)), ?_⟩
  obtain ⟨f, rfl⟩ : ∃ f, maxR = f + 2 := ⟨maxR - 2, by omega⟩
  simp [classifyEmail, classifyAux, h2a, h2b]

/-- Witness for classify_retry_bound with the default three attempts: an
always-raising oracle is invoked exactly 3 times, a raise-once oracle
succeeds after exactly 2 invocations. -/
theorem classify_retry_bound_case :
    ((∀ n, n < 3 → c3OracleFail n = ClassifierOutcome.raises) ∧
      c3OracleOnce 0 = ClassifierOutcome.raises ∧
      c3OracleOnce 1 = ClassifierOutcome.ok ⟨true, 1, "clear receipt"⟩ ∧
      2 ≤ 3) ∧
    (MAX_RETRIES = 3 ∧
      classifyEmail c3OracleFail 3 = ⟨none, 3, 3 - 1⟩ ∧
      classifyEmail c3OracleOnce 3 = ⟨some ⟨true, 1, "clear receipt"⟩, 2, 1⟩) :=
  ⟨⟨fun n _ => rfl, rfl, rfl, by omega⟩,
    classify_retry_bound c3OracleFail c3OracleOnce 3 ⟨true, 1, "clear receipt"⟩
      (fun n _ => rfl) rfl rfl (by omega)⟩

/-- A string is its character list repackaged. -/
theorem stringMkData (s : String) : String.mk s.data = s := by
  cases s; rfl

/-- Splitting a character list without the separator yields the single
segment made of the accumulator and the list. -/
theorem splitSepChars_no_sep :
    ∀ (cs acc : List Char), hasSepChars cs = false →
      splitSepChars cs acc = [String.mk (acc.reverse ++ cs)] := by
  intro cs
  induction cs with
  | nil => intro acc h; simp [splitSepChars]
  | cons c rest ih =>
    intro acc h
    cases rest with
    | nil => simp [splitSepChars]
    | cons d rest2 =>
      simp only [hasSepChars, Bool.or_eq_false_iff, Bool.and_eq_false_iff] at h
      obtain ⟨hcd, hrest⟩ := h
      have hcd2 : ¬(c = ',' ∧ d = ' ') := by
        rcases hcd with h1 | h1 <;> simp at h1 <;> tauto
      rw [splitSepChars, if_neg hcd2, ih (c :: acc) hrest]
      simp

/-- Splitting a character list that is a separator-free prefix, the
separator, and an arbitrary suffix cuts exactly at that separator. -/
theorem splitSepChars_append_sep :
    ∀ a : List Char, hasSepChars a = false →
      ∀ (acc b : List Char),
        splitSepChars (a ++ ',' :: ' ' :: b) acc =
          String.mk (acc.reverse ++ a) :: splitSepChars b [] := by
  intro a
  induction a with
  | nil =>
    intro h acc b
    rw [List.nil_append, splitSepChars, if_pos ⟨rfl, rfl⟩]
    simp
  | cons c a1 ih =>
    intro h acc b
    cases a1 with
    | nil =>
      rw [List.cons_append, List.nil_append, splitSepChars,
        if_neg (by simp), splitSepChars, if_pos ⟨rfl, rfl⟩]
      simp
    | cons d a2 =>
      simp only [hasSepChars, Bool.or_eq_false_iff, Bool.and_eq_false_iff] at h
      obtain ⟨hcd, hrest⟩ := h
      have hcd2 : ¬(c = ',' ∧ d = ' ') := by
        rcases hcd with h1 | h1 <;> simp at h1 <;> tauto
      rw [List.cons_append, List.cons_append, splitSepChars, if_neg hcd2]
      rw [show d :: (a2 ++ ',' :: ' ' :: b) = (d :: a2) ++ ',' :: ' ' :: b from rfl]
      rw [ih hrest (c :: acc) b]
      simp

/-- Python split of a separator-free string is the one-element list holding
the string itself. -/
theorem pySplit_no_sep (s : String) (h : hasSep s = false) :
    pySplit s = [s] := by
  rw [pySplit, splitSepChars_no_sep s.data [] h]
  simp [stringMkData]

/-- Python split of a separator-free string joined before an arbitrary
string cuts at the joining separator. -/
theorem pySplit_append_sep (a b : String) (h : hasSep a = false) :
    pySplit (a ++ ", " ++ b) = a :: pySplit b := by
  rw [pySplit]
  have hd : (a ++ ", " ++ b).data = a.data ++ ',' :: ' ' :: b.data := by
    rw [String.data_append, String.data_append, List.append_assoc]
    rfl
  rw [hd, splitSepChars_append_sep a.data h [] b.data]
  simp [stringMkData, pySplit]

/-- Merging a second message of a thread into the seeded conversation of a
first message produces a sender string whose address set is the union of
the two resolved sender contributions. -/
theorem merge_senderSet (X Y : RawMsg)
    (hx : hasSep (resolvedFrom X) = false)
    (hy : hasSep (resolvedFrom Y) = false) :
    senderSet (mergeMsg (seedMsg X) Y) = contribSenders X ∪ contribSenders Y := by
  have hfield : (mergeMsg (seedMsg X) Y).from_email =
      pyJoin (List.dedup (pySplit (resolvedFrom X) ++ [resolvedFrom Y])) := rfl
  rw [senderSet, hfield, pySplit_no_sep _ hx]
  by_cases hxy : resolvedFrom X = resolvedFrom Y
  · have hded : List.dedup [resolvedFrom X, resolvedFrom Y] = [resolvedFrom Y] := by
      rw [hxy]
      simp
    rw [show [resolvedFrom X] ++ [resolvedFrom Y] =
        [resolvedFrom X, resolvedFrom Y] from rfl, hded]
    rw [show pyJoin [resolvedFrom Y] = resolvedFrom Y from rfl]
    rw [contribSenders, contribSenders, hxy, pySplit_no_sep _ hy]
    simp
  · have hded : List.dedup [resolvedFrom X, resolvedFrom Y] =
        [resolvedFrom X, resolvedFrom Y] := by
      rw [List.dedup_cons_of_not_mem (by simp [hxy])]
      simp
    rw [show [resolvedFrom X] ++ [resolvedFrom Y] =
        [resolvedFrom X, resolvedFrom Y] from rfl, hded]
    rw [show pyJoin [resolvedFrom X, resolvedFrom Y] =
        resolvedFrom X ++ ", " ++ resolvedFrom Y from rfl]
    rw [pySplit_append_sep _ _ hx, pySplit_no_sep _ hy]
    rw [contribSenders, contribSenders, pySplit_no_sep _ hx, pySplit_no_sep _ hy]
    simp only [List.toFinset_cons, List.toFinset_nil, insert_emptyc_eq]
    ext x
    simp

/-- Aggregating exactly two messages of one thread seeds from the first and
merges the second. -/
theorem aggregate_pair (A B : RawMsg) (t : String)
    (hA : A.thread_id = t) (hB : B.thread_id = t) :
    aggregate [A, B] = [(t, mergeMsg (seedMsg A) B)] := by
  simp [aggregate, threadStep, lookupThread, setThread, hA, hB]

/-- Claim C7: for two raw messages of one thread whose resolved sender
strings are separator-free addresses, the aggregated conversation's sender
set is the union of the two contributions (reply-to overriding from), and
the same set results whichever message is fetched first. -/
theorem aggregate_sender_union (A B : RawMsg) (t : String)
    (hA : A.thread_id = t) (hB : B.thread_id = t)
    (hsA : hasSep (resolvedFrom A) = false)
    (hsB : hasSep (resolvedFrom B) = false) :
    ∃ c1 c2, aggregate [A, B] = [(t, c1)] ∧ aggregate [B, A] = [(t, c2)] ∧
      senderSet c1 = contribSenders A ∪ contribSenders B ∧
      senderSet c2 = contribSenders A ∪ contribSenders B := by
  refine ⟨mergeMsg (seedMsg A) B, mergeMsg (seedMsg B) A,
    aggregate_pair A B t hA hB, aggregate_pair B A t hB hA,
    merge_senderSet A B hsA hsB, ?_⟩
  rw [merge_senderSet B A hsB hsA]
  exact Finset.union_comm _ _

/-- Witness for aggregate_sender_union: one message with a Reply-To
override and one without, in both fetch orders. -/
theorem aggregate_sender_union_case :
    (c7A.thread_id = "t1" ∧ c7B.thread_id = "t1" ∧
      hasSep (resolvedFrom c7A) = false ∧ hasSep (resolvedFrom c7B) = false) ∧
    (∃ c1 c2, aggregate [c7A, c7B] = [("t1", c1)] ∧
      aggregate [c7B, c7A] = [("t1", c2)] ∧
      senderSet c1 = contribSenders c7A ∪ contribSenders c7B ∧
      senderSet c2 = contribSenders c7A ∪ contribSenders c7B) :=
  ⟨⟨rfl, rfl, by decide, by decide⟩,
    aggregate_sender_union c7A c7B "t1" rfl rfl (by decide) (by decide)⟩

/-- The merged conversation's timestamp is the max of the existing one and
the merged message's (tools.py lines 194-195). -/
theorem merge_send_time (c : EmailData) (m : RawMsg) :
    (mergeMsg c m).send_time = max c.send_time m.send_time := by
  show (if m.send_time > c.send_time then m.send_time else c.send_time) =
    max c.send_time m.send_time
  rw [max_def]
  split <;> split <;> omega

/-- Folding messages into a conversation folds max over their timestamps. -/
theorem foldConv_send_time :
    ∀ (ms : List RawMsg) (c : EmailData),
      (ms.foldl mergeMsg c).send_time =
        (ms.map RawMsg.send_time).foldl max c.send_time := by
  intro ms
  induction ms with
  | nil => intro c; rfl
  | cons m ms ih =>
    intro c
    rw [List.foldl_cons, List.map_cons, List.foldl_cons, ih, merge_send_time]

/-- While every incoming message carries the thread id of the single
accumulated conversation, the fold stays a one-entry map and merges each
message in turn. -/
theorem foldl_threadStep_single :
    ∀ (ms : List RawMsg) (c : EmailData) (t : String),
      (∀ x ∈ ms, x.thread_id = t) →
      ms.foldl threadStep [(t, c)] = [(t, ms.foldl mergeMsg c)] := by
  intro ms
  induction ms with
  | nil => intro c t h; rfl
  | cons m ms ih =>
    intro c t h
    have hm : m.thread_id = t := h m (List.mem_cons_self m ms)
    have hstep : threadStep [(t, c)] m = [(t, mergeMsg c m)] := by
      simp [threadStep, lookupThread, setThread, hm]
    rw [List.foldl_cons, hstep,
      ih (mergeMsg c m) t (fun x hx => h x (List.mem_cons_of_mem m hx)),
      List.foldl_cons]

/-- Aggregating a non-empty single-thread batch seeds from the first
message and folds the rest in fetch order. -/
theorem aggregate_single_thread (m : RawMsg) (ms : List RawMsg) (t : String)
    (h : ∀ x ∈ m :: ms, x.thread_id = t) :
    aggregate (m :: ms) = [(t, ms.foldl mergeMsg (seedMsg m))] := by
  rw [aggregate, List.foldl_cons]
  have hfirst : threadStep [] m = [(t, seedMsg m)] := by
    simp [threadStep, lookupThread, h m (List.mem_cons_self m ms)]
  rw [hfirst,
    foldl_threadStep_single ms (seedMsg m) t
      (fun x hx => h x (List.mem_cons_of_mem m hx))]

/-- Characterization of the aggregated conversation of a single-thread
batch: its timestamp is a member of and an upper bound for the constituent
timestamps. -/
theorem aggregate_send_time_char (m : RawMsg) (ms : List RawMsg) (t : String)
    (h : ∀ x ∈ m :: ms, x.thread_id = t) :
    aggregate (m :: ms) = [(t, ms.foldl mergeMsg (seedMsg m))] ∧
    (ms.foldl mergeMsg (seedMsg m)).send_time ∈
      (m :: ms).map RawMsg.send_time ∧
    ∀ x ∈ m :: ms,
      x.send_time ≤ (ms.foldl mergeMsg (seedMsg m)).send_time := by
  refine ⟨aggregate_single_thread m ms t h, ?_, ?_⟩
  · rw [foldConv_send_time, List.map_cons]
    rcases foldlMax_mem_or_init (ms.map RawMsg.send_time)
        (seedMsg m).send_time with h1 | h1
    · rw [h1]; exact List.mem_cons_self _ _
    · exact List.mem_cons_of_mem _ h1
  · intro x hx
    rw [foldConv_send_time]
    rcases List.mem_cons.mp hx with h1 | h1
    · subst h1; exact le_foldlMax _ _
    · exact mem_le_foldlMax _ _ _ (List.mem_map_of_mem RawMsg.send_time h1)

/-- Claim C8: folding the messages of one thread in any order yields a
conversation whose latest timestamp is the maximum of the constituent
timestamps; in particular every permutation of the fetch order produces
the same latest timestamp, so merging an earlier message after a later
one never regresses it. -/
theorem aggregate_latest_timestamp (m : RawMsg) (ms : List RawMsg) (t : String)
    (h : ∀ x ∈ m :: ms, x.thread_id = t) :
    ∃ c, aggregate (m :: ms) = [(t, c)] ∧
      c.send_time ∈ (m :: ms).map RawMsg.send_time ∧
      (∀ x ∈ m :: ms, x.send_time ≤ c.send_time) ∧
      ∀ l, (m :: ms).Perm l → ∃ c2, aggregate l = [(t, c2)] ∧
        c2.send_time = c.send_time := by
  obtain ⟨hagg, hmem, hub⟩ := aggregate_send_time_char m ms t h
  refine ⟨_, hagg, hmem, hub, ?_⟩
  intro l hperm
  cases l with
  | nil => simpa using hperm.length_eq
  | cons m2 ms2 =>
    have h2 : ∀ x ∈ m2 :: ms2, x.thread_id = t :=
      fun x hx => h x (hperm.mem_iff.mpr hx)
    obtain ⟨hagg2, hmem2, hub2⟩ := aggregate_send_time_char m2 ms2 t h2
    refine ⟨_, hagg2, ?_⟩
    apply le_antisymm
    · obtain ⟨x, hx, hxe⟩ := List.mem_map.mp hmem2
      rw [← hxe]
      exact hub x (hperm.mem_iff.mpr hx)
    · obtain ⟨x, hx, hxe⟩ := List.mem_map.mp hmem
      rw [← hxe]
      exact hub2 x (hperm.mem_iff.mp hx)

/-- Witness for aggregate_latest_timestamp: a later message fetched first,
an earlier one merged afterwards. -/
theorem aggregate_latest_timestamp_case :
    (∀ x ∈ [c8A, c8B], x.thread_id = "t1") ∧
    (∃ c, aggregate [c8A, c8B] = [("t1", c)] ∧
      c.send_time ∈ [c8A, c8B].map RawMsg.send_time ∧
      (∀ x ∈ [c8A, c8B], x.send_time ≤ c.send_time) ∧
      ∀ l, ([c8A, c8B]).Perm l → ∃ c2, aggregate l = [("t1", c2)] ∧
        c2.send_time = c.send_time) :=
  ⟨by decide, aggregate_latest_timestamp c8A [c8B] "t1" (by decide)⟩
